import Mathlib

/-!
Shallow embedding of `corella_lib/serial.py` (the `Corella` serial driver)
and proofs about its specified behaviour.

Modelling conventions:
* Python strings are Lean `String` (a list of unicode code points); `len`
  is `String.length`, slicing and formatting are expressed on `toList`.
* The serial transport is a `SerialState`: a list of lines still to be
  read (an exhausted list models the read timeout, which yields the empty
  string), plus an ordered trace of observable events (bytes written,
  sleeps requested).
* Fallible Python code (unpack errors, `int()` parse errors, `pop` on an
  empty list, `None.groupdict()`) is modelled with `Option` / `Except`.
* `time.sleep(n)` is modelled by recording the requested duration in the
  event trace.
-/

namespace Corella

/-- UTF-8 encoding of a single character, byte by byte, as natural numbers
below 256.  Mirrors Python's `str.encode()` for each code point. -/
def utf8EncodeChar (c : Char) : List Nat :=
  let n := c.toNat
  if n < 0x80 then [n]
  else if n < 0x800 then [0xC0 + n / 64, 0x80 + n % 64]
  else if n < 0x10000 then
    [0xE0 + n / 4096, 0x80 + (n / 64) % 64, 0x80 + n % 64]
  else
    [0xF0 + n / 262144, 0x80 + (n / 4096) % 64, 0x80 + (n / 64) % 64,
      0x80 + n % 64]

/-- UTF-8 encoding of a string, mirroring Python's `str.encode()`. -/
def utf8Encode (s : String) : List Nat :=
  (s.toList.map utf8EncodeChar).flatten

/-- `Corella.DATA_SIZE` from the source. -/
def DATA_SIZE : Nat := 12

/-- `Corella.RESPONSE_OK` from the source. -/
def RESPONSE_OK : String := "OK"

/-- `Corella.COMMAND_AT_STATUS` from the source. -/
def COMMAND_AT_STATUS : String := "AT+STATUS?"

/-- `Corella._pack_data` from the source: `data_format.format(data)` where
`data_format` is the format spec `12.12` applied to a string, i.e. truncate
to the first 12 characters, then left-justify by right-padding with spaces
to width 12. -/
def _pack_data (data : String) : String :=
  let t := data.toList.take DATA_SIZE
  String.mk (t ++ List.replicate (DATA_SIZE - t.length) ' ')

/-- The warning branch chosen by `Corella._pack_data`: `none` when
`packed_data == data` (no warning logged), otherwise the message selected
by the three-way comparison of the lengths. -/
def _pack_warning (data : String) : Option String :=
  let packed_data := _pack_data data
  if packed_data = data then none
  else if packed_data.length > data.length then
    some "Original message padded to 12 bytes!"
  else if packed_data.length < data.length then
    some "Original message truncated to 12 bytes!"
  else
    some "Original message forced to 12 bytes!"

/-- Python's `str.rstrip(' ')`: remove trailing space characters (used to
state recoverability of a padded payload). -/
def rstripSpaces (s : String) : String :=
  String.mk (((s.toList.reverse).dropWhile (fun c => c = ' ')).reverse)

/-- `Corella.encode_command` from the source: the UTF-8 bytes of the
command followed by a carriage return and a line feed. -/
def encode_command (command : String) : List Nat :=
  utf8Encode (command ++ "\r\n")

-- Basic facts about the packed payload.

theorem pack_data_toList (data : String) :
    (_pack_data data).toList =
      data.toList.take DATA_SIZE ++
        List.replicate (DATA_SIZE - (data.toList.take DATA_SIZE).length) ' ' :=
  rfl

theorem length_pack_data (data : String) : (_pack_data data).length = 12 := by
  have h : (_pack_data data).length = (_pack_data data).toList.length := rfl
  rw [h, pack_data_toList]
  simp only [List.length_append, List.length_replicate, List.length_take,
    DATA_SIZE]
  omega

theorem pack_data_eq_iff (data : String) :
    _pack_data data = data ↔ data.length = 12 := by
  constructor
  · intro h
    have := length_pack_data data
    rw [h] at this
    exact this
  · intro h
    have hlen : data.toList.length = 12 := h
    have htake : data.toList.take DATA_SIZE = data.toList := by
      apply List.take_of_length_le
      rw [hlen]; exact le_refl 12
    apply String.ext
    show (_pack_data data).toList = data.toList
    rw [pack_data_toList, htake, hlen]
    simp [DATA_SIZE]

theorem pack_data_of_lt (data : String) (h : data.length < 12) :
    _pack_data data =
      data ++ String.mk (List.replicate (12 - data.length) ' ') := by
  have hlen : data.toList.length = data.length := rfl
  have htake : data.toList.take DATA_SIZE = data.toList := by
    apply List.take_of_length_le
    rw [hlen]
    show data.length ≤ 12
    omega
  apply String.ext
  show (_pack_data data).toList = data.toList ++ List.replicate (12 - data.length) ' '
  rw [pack_data_toList, htake, hlen]
  rfl

theorem pack_data_of_gt (data : String) (h : data.length > 12) :
    _pack_data data = String.mk (data.toList.take 12) := by
  have hlen : data.toList.length = data.length := rfl
  apply String.ext
  show (_pack_data data).toList = data.toList.take 12
  rw [pack_data_toList]
  have h12 : (data.toList.take DATA_SIZE).length = 12 := by
    rw [List.length_take, hlen]
    show min 12 data.length = 12
    omega
  rw [h12]
  show data.toList.take 12 ++ List.replicate (12 - 12) ' ' = data.toList.take 12
  simp

theorem rstrip_pack_data (data : String) (hlt : data.length < 12)
    (hnt : rstripSpaces data = data) :
    rstripSpaces (_pack_data data) = data := by
  rw [pack_data_of_lt data hlt]
  have : (data ++ String.mk (List.replicate (12 - data.length) ' ')).toList
      = data.toList ++ List.replicate (12 - data.length) ' ' := rfl
  show String.mk _ = data
  rw [show (data ++ String.mk (List.replicate (12 - data.length) ' ')).toList
      = data.toList ++ List.replicate (12 - data.length) ' ' from rfl]
  rw [List.reverse_append, List.reverse_replicate]
  rw [List.dropWhile_append]
  have hrep : ((List.replicate (12 - data.length) ' ').dropWhile
      (fun c => c = ' ')) = [] := by
    rw [List.dropWhile_eq_nil_iff]
    intro x hx
    simp [List.eq_of_mem_replicate hx]
  rw [hrep]
  simp only [List.isEmpty_nil, if_pos rfl]
  conv_rhs => rw [← hnt]
  rfl

/-- One observable interaction of the engine with the outside world:
bytes written to the transport, or a sleep of the given duration. -/
inductive Event where
  | write (bytes : List Nat)
  | sleep (seconds : Int)
  deriving DecidableEq, Repr

/-- The transport as seen by the engine: the lines it will yield to
successive `readline` calls (exhaustion models the read timeout, which
yields an empty line), and the trace of events so far. -/
structure SerialState where
  incoming : List String
  trace : List Event
  deriving DecidableEq, Repr

/-- Python's `str.strip()`: remove leading and trailing whitespace. -/
def pyStrip (s : String) : String :=
  String.mk (((s.toList.dropWhile Char.isWhitespace).reverse.dropWhile
    Char.isWhitespace).reverse)

/-- The loop of `Corella._readlines` on the list of lines the transport
will yield: collect `line.strip()` for each line until a stripped line is
empty; return the collected lines and the lines left unread.  An exhausted
list models the read timeout (`readline` yields the empty string). -/
def readlinesFrom : List String → List String × List String
  | [] => ([], [])
  | l :: ls =>
    if pyStrip l = "" then ([], ls)
    else
      let p := readlinesFrom ls
      (pyStrip l :: p.1, p.2)

/-- `Corella._readlines` on the transport state. -/
def _readlines (st : SerialState) : List String × SerialState :=
  let p := readlinesFrom st.incoming
  (p.1, { st with incoming := p.2 })

/-- `Corella.request` with `throttle=False` (no throttle check): write the
encoded command, then collect the response lines. -/
def request_aux (command : String) (st : SerialState) :
    List String × SerialState :=
  _readlines { st with trace := st.trace ++ [Event.write (encode_command command)] }

/-- Helper for `pySplit`: `acc` holds the characters of the current token
in reverse order. -/
def pySplitCore : List Char → List Char → List String
  | acc, [] => if acc.isEmpty then [] else [String.mk acc.reverse]
  | acc, c :: cs =>
    if c.isWhitespace then
      if acc.isEmpty then pySplitCore [] cs
      else String.mk acc.reverse :: pySplitCore [] cs
    else pySplitCore (c :: acc) cs

/-- Python's `str.split()` with no separator: split on whitespace runs,
discarding empty pieces. -/
def pySplit (s : String) : List String :=
  pySplitCore [] s.toList

/-- Digit tail of Python's `int()` literal syntax: decimal digits with
single underscores allowed between digits, accumulating the value. -/
def pyDigitsAux : Nat → List Char → Option Nat
  | acc, [] => some acc
  | acc, c :: cs =>
    if c.isDigit then pyDigitsAux (10 * acc + (c.toNat - 48)) cs
    else if c = '_' then
      match cs with
      | [] => none
      | d :: cs' =>
        if d.isDigit then pyDigitsAux (10 * acc + (d.toNat - 48)) cs'
        else none
    else none

/-- Unsigned part of Python's `int()`: at least one digit, underscores only
between digits. -/
def pyNat? : List Char → Option Nat
  | [] => none
  | c :: cs => if c.isDigit then pyDigitsAux (c.toNat - 48) cs else none

/-- Python's `int(s)` for base 10: optional surrounding whitespace, an
optional sign, then a digit string.  `none` models `ValueError`. -/
def pyInt? (s : String) : Option Int :=
  let cs := ((s.toList.dropWhile Char.isWhitespace).reverse.dropWhile
    Char.isWhitespace).reverse
  match cs with
  | '+' :: rest => (pyNat? rest).map (fun n => (n : Int))
  | '-' :: rest => (pyNat? rest).map (fun n => -(n : Int))
  | rest => (pyNat? rest).map (fun n => (n : Int))

/-- `Corella._wait_throttle` from the source: issue the status query
(through `request` with `throttle=False`), return if the response is empty
or its last line is `"OK"`; otherwise split the last line on whitespace
into exactly three tokens, parse the middle one as an integer `seconds`,
and sleep `seconds + 1`.  A failed unpack or parse is an uncaught Python
exception, modelled as `Except.error`. -/
def _wait_throttle (st : SerialState) : Except String SerialState :=
  let p := request_aux COMMAND_AT_STATUS st
  match p.1.getLast? with
  | none => Except.ok p.2
  | some line =>
    if line = RESPONSE_OK then Except.ok p.2
    else
      match pySplit line with
      | [_, s, _] =>
        match pyInt? s with
        | some seconds =>
          Except.ok { p.2 with trace := p.2.trace ++ [Event.sleep (seconds + 1)] }
        | none => Except.error "invalid literal for int() with base 10"
      | _ => Except.error "values to unpack"

/-- `Corella.request` from the source: when `throttle` and
`handle_throttling` are both set, run the throttle check first; then write
the encoded command and collect the response. -/
def request (handle_throttling : Bool) (command : String) (throttle : Bool)
    (st : SerialState) : Except String (List String × SerialState) :=
  if throttle && handle_throttling then
    match _wait_throttle st with
    | Except.ok st' => Except.ok (request_aux command st')
    | Except.error e => Except.error e
  else
    Except.ok (request_aux command st)

/-- `Corella.send` from the source: pack the payload, format the
`AT+SEND={packet_id},{data}` command, request it with `throttle=True`, and
pop the last response line (`IndexError` on an empty response, modelled as
`Except.error`). -/
def send (handle_throttling : Bool) (packet_id : Int) (data : String)
    (st : SerialState) : Except String (String × SerialState) :=
  let command := "AT+SEND=" ++ toString packet_id ++ "," ++ _pack_data data
  match request handle_throttling command true st with
  | Except.ok p =>
    match p.1.getLast? with
    | some line => Except.ok (line, p.2)
    | none => Except.error "pop from empty list"
  | Except.error e => Except.error e

/-- Split a character list at the first occurrence of `sep`; `none` if the
separator does not occur.  Models Python's `s.split(sep, 1)` yielding two
pieces (with `none` for the single-piece case, where the `key, value`
destructuring in the source raises `ValueError`). -/
def splitOnce (sep : Char) : List Char → Option (List Char × List Char)
  | [] => none
  | c :: cs =>
    if c = sep then some ([], cs)
    else (splitOnce sep cs).map (fun p => (c :: p.1, p.2))

/-- `line.split('=', 1)` destructured into `key, value`; `none` models the
unpack `ValueError` when the line holds no `'='`. -/
def parse_kv (line : String) : Option (String × String) :=
  (splitOnce '=' line.toList).map (fun p => (String.mk p.1, String.mk p.2))

/-- Python `dict` insertion `d[k] = v` on an association list with unique
keys (the only dicts built here start empty and grow by this insertion, so
keys stay unique): overwrite the binding of `k` in place if present,
append otherwise. -/
def dictInsert : List (String × String) → String → String →
    List (String × String)
  | [], k, v => [(k, v)]
  | (k₁, v₁) :: d, k, v =>
    if k₁ = k then (k, v) :: d else (k₁, v₁) :: dictInsert d k v

/-- Python `dict` lookup `d[k]` on the association list (keys are unique,
so first match is the match), `none` modelling `KeyError`. -/
def dictLookup : List (String × String) → String → Option String
  | [], _ => none
  | (k₁, v₁) :: d, k => if k₁ = k then some v₁ else dictLookup d k

/-- The shared loop of `_parse_diagnostics` / `_parse_version`: insert
`key = value` for each line in order, failing on the first line without
an `'='`. -/
def parseLinesFrom (d : List (String × String)) :
    List String → Option (List (String × String))
  | [] => some d
  | l :: ls =>
    match parse_kv l with
    | some kv => parseLinesFrom (dictInsert d kv.1 kv.2) ls
    | none => none

/-- `Corella._parse_diagnostics` from the source: split every line on the
first `'='` and build the record. -/
def _parse_diagnostics (diagnostics : List String) :
    Option (List (String × String)) :=
  parseLinesFrom [] diagnostics

/-- `Corella._parse_version` from the source: like `_parse_diagnostics`
but over `version[1:]` (the first line is skipped). -/
def _parse_version (version : List String) :
    Option (List (String × String)) :=
  parseLinesFrom [] (version.drop 1)

/-- Match of `BATTERY_REGEX = r'^(?P<battery>\d+\.\d+)'` against the start
of a string: the maximal leading digit run, a dot, the maximal digit run
after it, returned as the two digit groups; `none` when the pattern does
not match at the start. -/
def batteryMatch (s : String) : Option (List Char × List Char) :=
  let cs := s.toList
  let d₁ := cs.takeWhile Char.isDigit
  match d₁, cs.dropWhile Char.isDigit with
  | [], _ => none
  | _ :: _, x :: rest =>
    if x = '.' then
      match rest.takeWhile Char.isDigit with
      | [] => none
      | d₂ => some (d₁, d₂)
    else none
  | _ :: _, [] => none

/-- Numeric value of a digit list (most significant first). -/
def digitsVal (ds : List Char) : Nat :=
  ds.foldl (fun acc c => 10 * acc + (c.toNat - 48)) 0

/-- Exact value of Python's `float("<d₁>.<d₂>")` on the digit groups of a
battery match, as a rational (the parse is modelled exactly, without IEEE
rounding). -/
def decimalVal (d₁ d₂ : List Char) : ℚ :=
  (digitsVal d₁ : ℚ) + (digitsVal d₂ : ℚ) / (10 : ℚ) ^ d₂.length

/-- The `Corella.battery` accessor applied to an already-parsed
diagnostics record: look up `"BATTERY"` (`none` models `KeyError`), match
`BATTERY_REGEX` against the value (`none` models `AttributeError` from
`None.groupdict()`), and parse the matched group as a float. -/
def battery (diag : List (String × String)) : Option ℚ :=
  (dictLookup diag "BATTERY").bind (fun s =>
    (batteryMatch s).map (fun p => decimalVal p.1 p.2))

/-- C1: for every input string `data`, `_pack_data data` has length exactly
12; it equals `data` iff `data` has length 12; shorter inputs are
right-padded with spaces (recoverable by trimming trailing spaces when the
input has none); longer inputs are truncated to their first 12
characters. -/
theorem pack_data_spec (data : String) :
    (_pack_data data).length = 12 ∧
    (_pack_data data = data ↔ data.length = 12) ∧
    (data.length < 12 →
      _pack_data data = data ++ String.mk (List.replicate (12 - data.length) ' ') ∧
      (rstripSpaces data = data → rstripSpaces (_pack_data data) = data)) ∧
    (data.length > 12 → _pack_data data = String.mk (data.toList.take 12)) :=
  ⟨length_pack_data data, pack_data_eq_iff data,
    fun h => ⟨pack_data_of_lt data h, fun hnt => rstrip_pack_data data h hnt⟩,
    fun h => pack_data_of_gt data h⟩

/-- Witness for C1 at `data = "hello"`. -/
theorem pack_data_spec_witness :
    ("hello" : String).length < 12 ∧
    _pack_data "hello" = "hello" ++ String.mk (List.replicate (12 - ("hello" : String).length) ' ') ∧
    rstripSpaces (_pack_data "hello") = "hello" :=
  ⟨by decide, ((pack_data_spec "hello").2.2.1 (by decide)).1,
    ((pack_data_spec "hello").2.2.1 (by decide)).2 (by decide)⟩

/-- C8: the third warning branch of `_pack_data` is dead: a packed result
that differs from the input never has the input's length, so the warning
`"Original message forced to 12 bytes!"` is never selected. -/
theorem pack_forced_unreachable (data : String) :
    (_pack_data data ≠ data → (_pack_data data).length ≠ data.length) ∧
    _pack_warning data ≠ some "Original message forced to 12 bytes!" := by
  have hiff := pack_data_eq_iff data
  have hlen := length_pack_data data
  have hmain : _pack_data data ≠ data → (_pack_data data).length ≠ data.length := by
    intro hne hl
    exact hne (hiff.mpr (by omega))
  refine ⟨hmain, ?_⟩
  intro hforced
  by_cases h : _pack_data data = data
  · simp only [_pack_warning, if_pos h] at hforced
    exact Option.noConfusion hforced
  · have hne := hmain h
    simp only [_pack_warning, if_neg h] at hforced
    rcases Nat.lt_or_ge data.length 12 with hlt | hge
    · have hgt : (_pack_data data).length > data.length := by omega
      rw [if_pos hgt] at hforced
      exact absurd (Option.some.inj hforced) (by decide)
    · have hltl : (_pack_data data).length < data.length := by omega
      have hng : ¬ (_pack_data data).length > data.length := by omega
      rw [if_neg hng, if_pos hltl] at hforced
      exact absurd (Option.some.inj hforced) (by decide)

/-- Witness for C8 at `data = "x"` (a genuinely padded input). -/
theorem pack_forced_unreachable_witness :
    _pack_data "x" ≠ "x" ∧ (_pack_data "x").length ≠ ("x" : String).length ∧
    _pack_warning "x" ≠ some "Original message forced to 12 bytes!" :=
  ⟨by decide, (pack_forced_unreachable "x").1 (by decide),
    (pack_forced_unreachable "x").2⟩

/-- C9: payload packing is idempotent. -/
theorem pack_data_idempotent (data : String) :
    _pack_data (_pack_data data) = _pack_data data :=
  (pack_data_eq_iff (_pack_data data)).mpr (length_pack_data data)

theorem readlinesFrom_fst (lines : List String) :
    (readlinesFrom lines).1 =
      (lines.takeWhile (fun l => pyStrip l ≠ "")).map pyStrip := by
  induction lines with
  | nil => rfl
  | cons l ls ih =>
    by_cases h : pyStrip l = ""
    · simp [readlinesFrom, h]
    · simp [readlinesFrom, h, ih]

/-- C4: whenever the transport's line sequence contains a line that strips
to empty, `_readlines` terminates (it is modelled by the total function
`readlinesFrom`) and returns exactly the stripped lines preceding the
first empty-stripped line, that terminator excluded. -/
theorem readlines_terminator_spec (lines : List String)
    (hterm : ∃ l ∈ lines, pyStrip l = "") :
    (readlinesFrom lines).1 =
      (lines.takeWhile (fun l => pyStrip l ≠ "")).map pyStrip :=
  readlinesFrom_fst lines

/-- Witness for C4: a transport yielding `["OK", ""]` produces the
response `["OK"]`. -/
theorem readlines_terminator_spec_witness :
    (∃ l ∈ ["OK", ""], pyStrip l = "") ∧
    (readlinesFrom ["OK", ""]).1 = ["OK"] :=
  ⟨⟨"", by decide, by decide⟩,
    (readlines_terminator_spec ["OK", ""] ⟨"", by decide, by decide⟩).trans
      (by decide)⟩

theorem request_aux_trace (c : String) (st : SerialState) :
    (request_aux c st).2.trace = st.trace ++ [Event.write (encode_command c)] :=
  rfl

theorem request_throttled (cmd : String) (st : SerialState) :
    request true cmd true st =
      (match _wait_throttle st with
        | Except.ok st' => Except.ok (request_aux cmd st')
        | Except.error e => Except.error e) :=
  rfl

theorem wait_throttle_of_empty (st : SerialState)
    (h : (request_aux COMMAND_AT_STATUS st).1 = []) :
    _wait_throttle st = Except.ok (request_aux COMMAND_AT_STATUS st).2 := by
  simp only [_wait_throttle, h]
  rfl

theorem wait_throttle_of_ok (st : SerialState)
    (h : (request_aux COMMAND_AT_STATUS st).1.getLast? = some RESPONSE_OK) :
    _wait_throttle st = Except.ok (request_aux COMMAND_AT_STATUS st).2 := by
  simp only [_wait_throttle, h]
  rfl

theorem wait_throttle_of_wait (st : SerialState) (line t₁ s t₂ : String)
    (n : Int) (hl : (request_aux COMMAND_AT_STATUS st).1.getLast? = some line)
    (hsp : pySplit line = [t₁, s, t₂]) (hn : pyInt? s = some n) :
    _wait_throttle st =
      Except.ok { (request_aux COMMAND_AT_STATUS st).2 with
        trace := (request_aux COMMAND_AT_STATUS st).2.trace ++
          [Event.sleep (n + 1)] } := by
  have hne : ¬ line = RESPONSE_OK := by
    intro he
    rw [he, show pySplit RESPONSE_OK = [RESPONSE_OK] from by decide] at hsp
    simp at hsp
  simp only [_wait_throttle, hl, if_neg hne, hsp, hn]

/-- C2: in the throttle check, an empty status response or a final `"OK"`
line causes no sleep; a final `"<token> <integer> <token>"` line causes a
sleep of exactly `integer + 1` seconds, recorded before the throttled
command is written to the transport. -/
theorem throttle_spec (st : SerialState) (cmd : String) :
    ((request_aux COMMAND_AT_STATUS st).1 = [] →
      ∃ r st', request true cmd true st = Except.ok (r, st') ∧
        st'.trace = st.trace ++
          [Event.write (encode_command COMMAND_AT_STATUS),
            Event.write (encode_command cmd)]) ∧
    ((request_aux COMMAND_AT_STATUS st).1.getLast? = some RESPONSE_OK →
      ∃ r st', request true cmd true st = Except.ok (r, st') ∧
        st'.trace = st.trace ++
          [Event.write (encode_command COMMAND_AT_STATUS),
            Event.write (encode_command cmd)]) ∧
    (∀ line t₁ s t₂ n,
      (request_aux COMMAND_AT_STATUS st).1.getLast? = some line →
      pySplit line = [t₁, s, t₂] → pyInt? s = some n →
      ∃ r st', request true cmd true st = Except.ok (r, st') ∧
        st'.trace = st.trace ++
          [Event.write (encode_command COMMAND_AT_STATUS),
            Event.sleep (n + 1), Event.write (encode_command cmd)]) := by
  refine ⟨?_, ?_, ?_⟩
  · intro h
    refine ⟨(request_aux cmd (request_aux COMMAND_AT_STATUS st).2).1,
      (request_aux cmd (request_aux COMMAND_AT_STATUS st).2).2, ?_, ?_⟩
    · rw [request_throttled, wait_throttle_of_empty st h]
    · rw [request_aux_trace, request_aux_trace]
      simp
  · intro h
    refine ⟨(request_aux cmd (request_aux COMMAND_AT_STATUS st).2).1,
      (request_aux cmd (request_aux COMMAND_AT_STATUS st).2).2, ?_, ?_⟩
    · rw [request_throttled, wait_throttle_of_ok st h]
    · rw [request_aux_trace, request_aux_trace]
      simp
  · intro line t₁ s t₂ n hl hsp hn
    refine ⟨(request_aux cmd { (request_aux COMMAND_AT_STATUS st).2 with
        trace := (request_aux COMMAND_AT_STATUS st).2.trace ++
          [Event.sleep (n + 1)] }).1,
      (request_aux cmd { (request_aux COMMAND_AT_STATUS st).2 with
        trace := (request_aux COMMAND_AT_STATUS st).2.trace ++
          [Event.sleep (n + 1)] }).2, ?_, ?_⟩
    · rw [request_throttled, wait_throttle_of_wait st line t₁ s t₂ n hl hsp hn]
    · rw [request_aux_trace]
      show ((request_aux COMMAND_AT_STATUS st).2.trace ++ [Event.sleep (n + 1)])
          ++ [Event.write (encode_command cmd)] = _
      rw [request_aux_trace]
      simp

/-- Witness for C2: a status response of `["WAIT 3 SEC"]` causes a sleep
of 4 seconds between the status write and the throttled write. -/
theorem throttle_spec_witness :
    ∃ r st', request true "AT" true ⟨["WAIT 3 SEC", ""], []⟩ =
        Except.ok (r, st') ∧
      st'.trace = [Event.write (encode_command COMMAND_AT_STATUS),
        Event.sleep 4, Event.write (encode_command "AT")] := by
  have h := (throttle_spec ⟨["WAIT 3 SEC", ""], []⟩ "AT").2.2 "WAIT 3 SEC"
    "WAIT" "3" "SEC" 3 (by decide) (by decide) (by decide)
  simpa using h

/-- C3: with throttling disabled, `send packet_id data` writes to the
transport exactly the UTF-8 bytes of `AT+SEND={packet_id},{packed}\r\n`
with `packed = _pack_data data`, and returns the last collected response
line. -/
theorem send_spec (packet_id : Int) (data : String) (st : SerialState) :
    ((request_aux ("AT+SEND=" ++ toString packet_id ++ "," ++ _pack_data data)
        st).2.trace =
      st.trace ++ [Event.write (utf8Encode
        ("AT+SEND=" ++ toString packet_id ++ "," ++ _pack_data data ++
          "\r\n"))]) ∧
    (∀ line,
      (request_aux ("AT+SEND=" ++ toString packet_id ++ "," ++ _pack_data data)
        st).1.getLast? = some line →
      send false packet_id data st = Except.ok (line,
        (request_aux ("AT+SEND=" ++ toString packet_id ++ "," ++
          _pack_data data) st).2)) := by
  constructor
  · rw [request_aux_trace]
    simp only [encode_command, String.append_assoc]
  · intro line h
    show (match
        (request_aux ("AT+SEND=" ++ toString packet_id ++ "," ++
          _pack_data data) st).1.getLast? with
      | some l => Except.ok (l,
          (request_aux ("AT+SEND=" ++ toString packet_id ++ "," ++
            _pack_data data) st).2)
      | none => Except.error "pop from empty list") = _
    rw [h]

/-- Witness for C3: `send 1 "hello"` with the transport yielding
`["OK", ""]` writes the bytes of `"AT+SEND=1,hello       \r\n"` (payload
padded to 12 characters) and returns `"OK"`. -/
theorem send_spec_witness :
    send false 1 "hello" ⟨["OK", ""], []⟩ =
      Except.ok ("OK",
        ⟨[], [Event.write (utf8Encode "AT+SEND=1,hello       \r\n")]⟩) :=
  ((send_spec 1 "hello" ⟨["OK", ""], []⟩).2 "OK" (by decide)).trans (by rfl)

/-- C7: a status response whose last line is neither empty nor `"OK"` and
does not carry an integer as the middle of exactly three
whitespace-separated tokens makes `_wait_throttle` fail, and the error
propagates uncaught through the throttled `request`. -/
theorem throttle_error_spec (st : SerialState) (cmd line : String)
    (hlast : (request_aux COMMAND_AT_STATUS st).1.getLast? = some line)
    (hne : ¬ line = "") (hnok : ¬ line = RESPONSE_OK)
    (hbad : ∀ t₁ s t₂, pySplit line = [t₁, s, t₂] → pyInt? s = none) :
    ∃ e, _wait_throttle st = Except.error e ∧
      request true cmd true st = Except.error e := by
  have hmain : ∃ e, _wait_throttle st = Except.error e := by
    simp only [_wait_throttle, hlast, if_neg hnok]
    rcases hsp : pySplit line with _ | ⟨a, _ | ⟨b, _ | ⟨c, _ | ⟨d, rest⟩⟩⟩⟩
    · exact ⟨_, rfl⟩
    · exact ⟨_, rfl⟩
    · exact ⟨_, rfl⟩
    · simp only [hbad a b c hsp]
      exact ⟨_, rfl⟩
    · exact ⟨_, rfl⟩
  obtain ⟨e, he⟩ := hmain
  refine ⟨e, he, ?_⟩
  rw [request_throttled, he]

/-- Witness for C7: a status response of `["BANANA"]` (one token, not
`"OK"`) makes the throttled request fail. -/
theorem throttle_error_spec_witness :
    ∃ e, _wait_throttle ⟨["BANANA", ""], []⟩ = Except.error e ∧
      request true "AT" true ⟨["BANANA", ""], []⟩ = Except.error e := by
  apply throttle_error_spec ⟨["BANANA", ""], []⟩ "AT" "BANANA" (by decide)
    (by decide) (by decide)
  intro t₁ s t₂ h
  rw [show pySplit "BANANA" = ["BANANA"] from by decide] at h
  injection h with h₁ h₂
  injection h₂

theorem dictLookup_dictInsert (d : List (String × String)) (k v k' : String) :
    dictLookup (dictInsert d k v) k' =
      if k = k' then some v else dictLookup d k' := by
  induction d with
  | nil =>
    by_cases h : k = k' <;> simp [dictInsert, dictLookup, h]
  | cons hd tl ih =>
    obtain ⟨k₁, v₁⟩ := hd
    by_cases h₁ : k₁ = k
    · subst h₁
      by_cases h₂ : k₁ = k' <;> simp [dictInsert, dictLookup, h₂]
    · by_cases h₂ : k₁ = k'
      · subst h₂
        have : ¬ k = k₁ := fun h => h₁ h.symm
        simp [dictInsert, dictLookup, h₁, this]
      · simp [dictInsert, dictLookup, h₁, h₂, ih]

/-- The value carried by the last line of `lines` whose key (the part
before the first `'='`) is `k`, if any. -/
def lastKV (lines : List String) (k : String) : Option String :=
  lines.reverse.findSome? (fun l =>
    match parse_kv l with
    | some kv => if kv.1 = k then some kv.2 else none
    | none => none)

theorem lastKV_nil (k : String) : lastKV [] k = none := rfl

theorem lastKV_cons (l : String) (ls : List String) (k : String) :
    lastKV (l :: ls) k =
      (lastKV ls k).or
        (match parse_kv l with
          | some kv => if kv.1 = k then some kv.2 else none
          | none => none) := by
  unfold lastKV
  rw [List.reverse_cons, List.findSome?_append]
  congr 1
  rcases hkv : parse_kv l with _ | kv <;>
    simp [List.findSome?_cons, hkv] <;>
    by_cases hk : kv.1 = k <;> simp [hk]

theorem parseLinesFrom_lookup (ls : List String)
    (d rec : List (String × String)) (k : String)
    (h : parseLinesFrom d ls = some rec) :
    dictLookup rec k = (lastKV ls k).or (dictLookup d k) := by
  induction ls generalizing d with
  | nil =>
    have hd : d = rec := Option.some.inj h
    subst hd
    simp [lastKV_nil]
  | cons l ls ih =>
    rcases hkv : parse_kv l with _ | ⟨k₀, v₀⟩
    · rw [show parseLinesFrom d (l :: ls) =
          (match parse_kv l with
            | some kv => parseLinesFrom (dictInsert d kv.1 kv.2) ls
            | none => none) from rfl, hkv] at h
      exact Option.noConfusion h
    · rw [show parseLinesFrom d (l :: ls) =
          (match parse_kv l with
            | some kv => parseLinesFrom (dictInsert d kv.1 kv.2) ls
            | none => none) from rfl, hkv] at h
      have hih := ih (dictInsert d k₀ v₀) h
      rw [hih, lastKV_cons, hkv, dictLookup_dictInsert, Option.or_assoc]
      by_cases hk : k₀ = k <;> simp [hk]

/-- C5: the version record is the diagnostics parse of the lines after
the header; on `["STATUS", "F.W=1.2", "H.W=A1"]` it is
`{F.W: "1.2", H.W: "A1"}`; and in both records the binding of every key
is the value of the last line carrying that key (last occurrence wins). -/
theorem parse_records_spec :
    (_parse_version ["STATUS", "F.W=1.2", "H.W=A1"] =
      some [("F.W", "1.2"), ("H.W", "A1")]) ∧
    (∀ lines, _parse_version lines = _parse_diagnostics (lines.drop 1)) ∧
    (∀ lines rec k, _parse_diagnostics lines = some rec →
      dictLookup rec k = lastKV lines k) ∧
    (∀ lines rec k, _parse_version lines = some rec →
      dictLookup rec k = lastKV (lines.drop 1) k) := by
  have hdiag : ∀ lines rec k, _parse_diagnostics lines = some rec →
      dictLookup rec k = lastKV lines k := by
    intro lines rec k h
    have := parseLinesFrom_lookup lines [] rec k h
    simpa [dictLookup, Option.or_none] using this
  exact ⟨by decide, fun lines => rfl, hdiag,
    fun lines rec k h => hdiag (lines.drop 1) rec k h⟩

/-- Witness for C5: with a repeated key, the later line wins. -/
theorem parse_records_spec_witness :
    _parse_diagnostics ["A=1", "A=2"] = some [("A", "2")] ∧
    dictLookup [("A", "2")] "A" = lastKV ["A=1", "A=2"] "A" ∧
    lastKV ["A=1", "A=2"] "A" = some "2" :=
  ⟨by decide,
    parse_records_spec.2.2.1 ["A=1", "A=2"] [("A", "2")] "A" (by decide),
    by decide⟩

theorem splitOnce_eq_none_iff (sep : Char) (cs : List Char) :
    splitOnce sep cs = none ↔ ¬ sep ∈ cs := by
  induction cs with
  | nil => simp [splitOnce]
  | cons c cs ih =>
    by_cases h : c = sep
    · subst h
      simp [splitOnce]
    · have h' : ¬ sep = c := fun he => h he.symm
      simp [splitOnce, h, ih, h']

theorem parse_kv_eq_none_iff (l : String) :
    parse_kv l = none ↔ ¬ '=' ∈ l.toList := by
  rw [parse_kv, Option.map_eq_none']
  exact splitOnce_eq_none_iff '=' l.toList

theorem parseLinesFrom_eq_none_iff (ls : List String)
    (d : List (String × String)) :
    parseLinesFrom d ls = none ↔ ∃ l ∈ ls, ¬ '=' ∈ l.toList := by
  induction ls generalizing d with
  | nil => simp [parseLinesFrom]
  | cons l ls ih =>
    rcases hkv : parse_kv l with _ | kv
    · have hl : ¬ '=' ∈ l.toList := (parse_kv_eq_none_iff l).mp hkv
      have hex : ∃ x ∈ l :: ls, ¬ '=' ∈ x.toList :=
        ⟨l, List.mem_cons_self l ls, hl⟩
      simp only [parseLinesFrom, hkv]
      exact iff_of_true trivial hex
    · have hl : '=' ∈ l.toList := by
        by_contra hc
        rw [← parse_kv_eq_none_iff, hkv] at hc
        exact Option.noConfusion hc
      simp only [parseLinesFrom, hkv]
      rw [ih]
      constructor
      · rintro ⟨x, hx, hx'⟩
        exact ⟨x, List.mem_cons_of_mem l hx, hx'⟩
      · rintro ⟨x, hx, hx'⟩
        rcases List.mem_cons.mp hx with he | hm
        · exact absurd (he ▸ hl) hx'
        · exact ⟨x, hm, hx'⟩

/-- C10: the diagnostics parser fails exactly when some line has no `'='`,
and the version parser fails exactly when some line after the first has
no `'='`. -/
theorem parse_missing_eq_spec :
    (∀ lines, _parse_diagnostics lines = none ↔
      ∃ l ∈ lines, ¬ '=' ∈ l.toList) ∧
    (∀ lines, _parse_version lines = none ↔
      ∃ l ∈ lines.drop 1, ¬ '=' ∈ l.toList) :=
  ⟨fun lines => parseLinesFrom_eq_none_iff lines [],
    fun lines => parseLinesFrom_eq_none_iff (lines.drop 1) []⟩

/-- Witness for C10: a line without `'='` makes the diagnostics parse
fail, and the version parser tolerates it only as the first line. -/
theorem parse_missing_eq_spec_witness :
    _parse_diagnostics ["NOEQ"] = none ∧
    _parse_version ["NOEQ", "A=1"] ≠ none :=
  ⟨(parse_missing_eq_spec.1 ["NOEQ"]).mpr ⟨"NOEQ", by decide, by decide⟩,
    fun h => by
      have := (parse_missing_eq_spec.2 ["NOEQ", "A=1"]).mp h
      revert this
      decide⟩

theorem batteryMatch_eq_some (v : String) (d₁ d₂ : List Char)
    (hm : batteryMatch v = some (d₁, d₂)) :
    ∃ rest, v.toList = d₁ ++ '.' :: d₂ ++ rest ∧ d₁ ≠ [] ∧ d₂ ≠ [] ∧
      (∀ c ∈ d₁, c.isDigit) ∧ (∀ c ∈ d₂, c.isDigit) := by
  simp only [batteryMatch] at hm
  split at hm
  · exact Option.noConfusion hm
  · rename_i c tw x rest htw hdw
    by_cases hx : x = '.'
    · rw [if_pos hx] at hm
      subst hx
      rcases hrtw : rest.takeWhile Char.isDigit with _ | ⟨c₂, tw₂⟩ <;>
        rw [hrtw] at hm
      · exact Option.noConfusion hm
      injection hm with hpair
      have h₀ : v.toList.takeWhile Char.isDigit = d₁ :=
        congrArg Prod.fst hpair
      have h₁ : c :: tw = d₁ := htw.symm.trans h₀
      have h₂ : c₂ :: tw₂ = d₂ := congrArg Prod.snd hpair
      refine ⟨rest.dropWhile Char.isDigit, ?_, ?_, ?_, ?_, ?_⟩
      · calc v.toList
            = v.toList.takeWhile Char.isDigit ++
                v.toList.dropWhile Char.isDigit :=
              (List.takeWhile_append_dropWhile Char.isDigit v.toList).symm
          _ = d₁ ++ '.' :: rest := by rw [h₀, hdw]
          _ = d₁ ++ '.' :: (d₂ ++ rest.dropWhile Char.isDigit) := by
              rw [← h₂, ← hrtw, List.takeWhile_append_dropWhile]
          _ = d₁ ++ '.' :: d₂ ++ rest.dropWhile Char.isDigit := by
              simp
      · rw [← h₁]; exact List.cons_ne_nil c tw
      · rw [← h₂]; exact List.cons_ne_nil c₂ tw₂
      · intro a ha
        rw [← h₀] at ha
        exact List.mem_takeWhile_imp ha
      · intro a ha
        rw [← h₂, ← hrtw] at ha
        exact List.mem_takeWhile_imp ha
    · rw [if_neg hx] at hm
      exact Option.noConfusion hm
  · exact Option.noConfusion hm

/-- C6: with the diagnostics record binding `"BATTERY"` to `v`, the
`battery` accessor fails when `v` does not start with a
`<digits>.<digits>` decimal, returns the parsed value of the leading
match otherwise, and yields `3.90` on the value `"3.90V"`. -/
theorem battery_spec (diag : List (String × String)) (v : String)
    (hv : dictLookup diag "BATTERY" = some v) :
    ((¬ ∃ d₁ d₂ rest, v.toList = d₁ ++ '.' :: d₂ ++ rest ∧ d₁ ≠ [] ∧
        d₂ ≠ [] ∧ (∀ c ∈ d₁, c.isDigit) ∧ (∀ c ∈ d₂, c.isDigit)) →
      battery diag = none) ∧
    (∀ d₁ d₂, batteryMatch v = some (d₁, d₂) →
      battery diag = some (decimalVal d₁ d₂)) ∧
    (v = "3.90V" → battery diag = some ((39 : ℚ) / 10)) := by
  have hb : battery diag =
      (batteryMatch v).map (fun p => decimalVal p.1 p.2) := by
    rw [battery, hv]
    rfl
  refine ⟨?_, ?_, ?_⟩
  · intro hnone
    rcases hm : batteryMatch v with _ | ⟨d₁, d₂⟩
    · rw [hb, hm]; rfl
    · obtain ⟨rest, hsplit, h₁, h₂, hd₁, hd₂⟩ :=
        batteryMatch_eq_some v d₁ d₂ hm
      exact absurd ⟨d₁, d₂, rest, hsplit, h₁, h₂, hd₁, hd₂⟩ hnone
  · intro d₁ d₂ hm
    rw [hb, hm]; rfl
  · intro he
    subst he
    rw [hb, show batteryMatch "3.90V" = some (['3'], ['9', '0']) from
      by decide]
    have h3 : digitsVal ['3'] = 3 := by decide
    have h90 : digitsVal ['9', '0'] = 90 := by decide
    simp only [Option.map_some', decimalVal, h3, h90, List.length_cons,
      List.length_nil]
    norm_num

/-- Witness for C6: the diagnostics record parsed from
`["BATTERY=3.90V", "MAX TEMP=25", "MIN TEMP=10"]` yields battery 3.90. -/
theorem battery_spec_witness :
    _parse_diagnostics ["BATTERY=3.90V", "MAX TEMP=25", "MIN TEMP=10"] =
      some [("BATTERY", "3.90V"), ("MAX TEMP", "25"), ("MIN TEMP", "10")] ∧
    battery [("BATTERY", "3.90V"), ("MAX TEMP", "25"), ("MIN TEMP", "10")] =
      some ((39 : ℚ) / 10) :=
  ⟨by decide,
    (battery_spec [("BATTERY", "3.90V"), ("MAX TEMP", "25"),
      ("MIN TEMP", "10")] "3.90V" (by decide)).2.2 rfl⟩

end Corella
